import Mathlib

/-!
# Verification of the e2pics picture-pixel service

Shallow embedding of `src/e2pics/app.py` and proofs about it.

The embedding mirrors the source:

* `pack` — the packing expression `(a << 24) | (r << 16) | (g << 8) | b`
  from `handle_picture` (app.py lines 51-52).
* `RGBAImage` — a decoded RGBA bitmap: width, height and a pixel function
  returning `(r, g, b, a)` quadruples, each channel 0-255.
* `imageNew` — `Image.new("RGBA", (w, h))`: a fully transparent canvas.
* `resizeImage` — `img.resize((w, h), BICUBIC)`: returns a `w × h` image whose
  content is given by an abstract resampling function (bicubic interpolation
  is an external collaborator; only the output dimensions matter here).
* `paste` — `new_img.paste(img, (ox, oy))`.
* `aspectScaledDims` / `resize_to_keep_aspect_ratio` — app.py lines 19-29.
  Python `int(img.height * k)` with `k = desired_width / img.width` is the
  floor of the exact ratio, i.e. natural division `img.height * dw / img.width`;
  Python `//` on ints is floor division, i.e. `Int.fdiv`.
* `getdata` — `img.getdata()`: the row-major pixel list (row 0 first,
  left-to-right inside a row).
* `handle_picture` — resize (direct or aspect-preserving) then pack, app.py
  lines 43-53, with the already-fetched source image as input.
* `lruGet` — the semantics of `functools.lru_cache(maxsize=cap)` on a function
  that can raise: the state is the entry list in most-recently-used-first
  order; a hit moves the entry to the front and does not call the function; a
  miss calls it, caches only a successful result (exceptions are not
  memoized), and drops the least-recently-used entry when over capacity.
* `fetch_picture` — `fetch_picture` (app.py lines 32-40): the fetch LRU cache
  applied to an abstract network function.
* `get_picutre_pixels` — the `/picpix` endpoint (app.py lines 60-83):
  validation in source order, in-band `!`-prefixed bodies for fetch/decode
  failures (the `except` arms, one per `FetchError` kind), slicing
  `img_arr[i:(i + cap)]` and `np.base_repr(pixel, 36)` joined by spaces.
  The outcome of `handle_picture` (value or raised error) is passed in as an
  `Except`, and `HTTPException` models the FastAPI transport-level client error.
* `toBase36` — `np.base_repr(n, 36)`: uppercase digits, no padding.
  `ofBase36` is the spec-side decoder used to state that the tokens really
  are base-36 encodings of the packed values.
-/

/-- A pixel channel quadruple `(r, g, b, a)`. -/
abbrev Pixel := ℕ × ℕ × ℕ × ℕ

/-- The packing expression from `handle_picture`:
`(int(a) << 24) | (int(r) << 16) | (int(g) << 8) | int(b)`. -/
def pack (r g b a : ℕ) : ℕ :=
  (a <<< 24) ||| (r <<< 16) ||| (g <<< 8) ||| b

/-- Application of `pack` to a pixel quadruple. -/
def packPixel (p : Pixel) : ℕ :=
  pack p.1 p.2.1 p.2.2.1 p.2.2.2

/-- A decoded RGBA image: dimensions plus a pixel function `(x, y) ↦ (r,g,b,a)`. -/
structure RGBAImage where
  width : ℕ
  height : ℕ
  pixel : ℕ → ℕ → Pixel

/-- Model of `Image.new("RGBA", (w, h))`: a fully transparent `w × h` canvas
(every pixel `(0, 0, 0, 0)`). -/
def imageNew (w h : ℕ) : RGBAImage :=
  ⟨w, h, fun _ _ => (0, 0, 0, 0)⟩

/-- Abstract bicubic resampling: given the source image and target dimensions,
produces the content of the resized image. Treated as an external collaborator
(PIL), like the network. -/
abbrev Resample := RGBAImage → ℕ → ℕ → ℕ → ℕ → Pixel

/-- Model of `img.resize((w, h), BICUBIC)`: a `w × h` image with resampled content. -/
def resizeImage (resample : Resample) (img : RGBAImage) (w h : ℕ) : RGBAImage :=
  ⟨w, h, resample img w h⟩

/-- Model of `canvas.paste(img, (ox, oy))`: inside the pasted rectangle the pixels come
from `img`, elsewhere from the canvas. The canvas dimensions are unchanged. -/
def paste (canvas img : RGBAImage) (ox oy : ℤ) : RGBAImage :=
  ⟨canvas.width, canvas.height, fun x y =>
    if ox ≤ (x : ℤ) ∧ (x : ℤ) < ox + (img.width : ℤ) ∧
       oy ≤ (y : ℤ) ∧ (y : ℤ) < oy + (img.height : ℤ) then
      img.pixel ((x : ℤ) - ox).toNat ((y : ℤ) - oy).toNat
    else canvas.pixel x y⟩

/-- The scaled dimensions computed by `resize_to_keep_aspect_ratio`
(app.py lines 21-27): branch on `img.width >= img.height`; the driving axis is
set to the desired size and the other is `int(size * k)`, the floor of the
exact ratio. -/
def aspectScaledDims (sw sh dw dh : ℕ) : ℕ × ℕ :=
  if sh ≤ sw then (dw, sh * dw / sw) else (sw * dh / sh, dh)

/-- Model of `resize_to_keep_aspect_ratio(img, desired_width, desired_height)`
(app.py lines 19-29): scale per `aspectScaledDims`, then paste onto a fresh
transparent canvas, centred with floor division on the non-driving axis. -/
def resize_to_keep_aspect_ratio (resample : Resample) (img : RGBAImage)
    (desired_width desired_height : ℕ) : RGBAImage :=
  let new_img := imageNew desired_width desired_height
  let dims := aspectScaledDims img.width img.height desired_width desired_height
  let scaled := resizeImage resample img dims.1 dims.2
  if img.height ≤ img.width then
    paste new_img scaled 0 (((desired_height : ℤ) - (scaled.height : ℤ)).fdiv 2)
  else
    paste new_img scaled (((desired_width : ℤ) - (scaled.width : ℤ)).fdiv 2) 0

/-- Model of `img.getdata()`: the pixels in row-major order (row 0 first, left-to-right
within a row). -/
def getdata (img : RGBAImage) : List Pixel :=
  (List.range img.height).flatMap fun y =>
    (List.range img.width).map fun x => img.pixel x y

/-- The resize step of `handle_picture` (app.py lines 46-48):
`img.resize((width, height), BICUBIC)` when `keep_aspect_ratio` is false,
otherwise `resize_to_keep_aspect_ratio`. -/
def resizedImage (resample : Resample) (img : RGBAImage)
    (width height : ℕ) ( keep_aspect_ratio : Bool) : RGBAImage :=
  if ! keep_aspect_ratio then resizeImage resample img width height
  else resize_to_keep_aspect_ratio resample img width height

/-- The pure core of `handle_picture` (app.py lines 43-53) given the fetched
source image: resize, then pack every pixel in `getdata` order. -/
def handle_picture (resample : Resample) (img : RGBAImage)
    (width height : ℕ) ( keep_aspect_ratio : Bool) : List ℕ :=
  (getdata (resizedImage resample img width height keep_aspect_ratio)).map packPixel

/-- State-passing semantics of `functools.lru_cache(maxsize=cap)` applied to a
fallible function `f`. The state lists entries most-recently-used first.
A hit returns the cached value and moves its entry to the front without
calling `f`; a miss calls `f`: an error leaves the state unchanged (exceptions
are not memoized), a success is inserted at the front and the list truncated
to `cap` entries (dropping the least-recently-used one when over capacity). -/
def lruGet {K V E : Type} [DecidableEq K] (cap : ℕ) (f : K → Except E V)
    (st : List (K × V)) (k : K) : Except E V × List (K × V) :=
  match st.find? (fun p => decide (p.1 = k)) with
  | some p => (Except.ok p.2, (k, p.2) :: st.filter (fun q => decide (q.1 ≠ k)))
  | none =>
    match f k with
    | Except.error e => (Except.error e, st)
    | Except.ok v => (Except.ok v, ((k, v) :: st).take cap)

/-- Well-formed cache state: distinct keys, at most `cap` entries. -/
def LruWF {K V : Type} (cap : ℕ) (st : List (K × V)) : Prop :=
  (st.map Prod.fst).Nodup ∧ st.length ≤ cap

/-- Constant `FETCH_CACHE_SIZE` (app.py line 11). -/
def FETCH_CACHE_SIZE : ℕ := 10

/-- Constant `HANDLE_CACHE_SIZE` (app.py line 12). -/
def HANDLE_CACHE_SIZE : ℕ := 10

/-- The closed error taxonomy of the `except` arms of the endpoint: the
`requests` exceptions caught in app.py lines 71-78 and the PIL
`UnidentifiedImageError` (line 79). -/
inductive FetchError where
  | timeout
  | connectionError
  | httpStatus (msg : String)
  | unknownNetwork
  | decodeError (msg : String)
deriving DecidableEq

/-- Model of `fetch_picture` (app.py lines 32-40): the LRU fetch cache of size
`FETCH_CACHE_SIZE` over an abstract network/decode function `net`. -/
def fetch_picture (net : String → Except FetchError RGBAImage)
    (st : List (String × RGBAImage)) (img_url : String) :
    Except FetchError RGBAImage × List (String × RGBAImage) :=
  lruGet FETCH_CACHE_SIZE net st img_url

/-- Model of `error_message` (app.py lines 56-57). -/
def error_message (message : String) : String :=
  "!" ++ message

/-- The body text chosen by the `except` arms of `get_picutre_pixels`
(app.py lines 71-80), one per `FetchError` kind. -/
def fetch_error_text : FetchError → String
  | FetchError.httpStatus msg => "HTTP error while requesting image url: " ++ msg
  | FetchError.timeout => "Timeout while requesting image url"
  | FetchError.connectionError => "Connection error while requesting image url"
  | FetchError.unknownNetwork => "Unknown error while requesting image url"
  | FetchError.decodeError msg => "Unidentified image: " ++ msg

/-- Model of the FastAPI `HTTPException(status, detail)`: a transport-level error
response, distinct from a plain-text body. -/
structure HTTPException where
  status : ℕ
  detail : String
deriving DecidableEq

/-- One base-36 digit character: `0`-`9` then uppercase `A`-`Z`,
as produced by `np.base_repr`. -/
def base36Char (d : ℕ) : Char :=
  if d < 10 then Char.ofNat (48 + d) else Char.ofNat (55 + d)

/-- Most-significant-first digit characters of `n` in base 36 (empty for 0). -/
def base36Digits (n : ℕ) : List Char :=
  if h : n = 0 then []
  else base36Digits (n / 36) ++ [base36Char (n % 36)]
decreasing_by exact Nat.div_lt_self (Nat.pos_of_ne_zero h) (by omega)

/-- Model of `np.base_repr(n, 36)`: minimal uppercase base-36 representation,
`"0"` for zero, no leading-zero padding. -/
def toBase36 (n : ℕ) : String :=
  String.mk (if n = 0 then ['0'] else base36Digits n)

/-- Numeric value of a base-36 digit character (inverse of `base36Char`). -/
def base36CharVal (c : Char) : ℕ :=
  if c.toNat < 58 then c.toNat - 48 else c.toNat - 55

/-- Spec-side decoder: the number denoted by a base-36 string. -/
def ofBase36 (s : String) : ℕ :=
  s.data.foldl (fun acc c => 36 * acc + base36CharVal c) 0

/-- Model of `get_picutre_pixels` (app.py lines 60-83). Validation in source order;
then the `try` block: a raised `FetchError` becomes an in-band `!`-prefixed
body, a successful render is sliced `img_arr[i:(i + cap)]` and encoded.
`render` is the outcome of `handle_picture(img_url, width, height,
keep_aspect_ratio)`; the result is `Except.error` exactly when the FastAPI
`HTTPException` is raised. -/
def get_picutre_pixels (render : Except FetchError (List ℕ))
    (i cap width height : ℤ) : Except HTTPException String :=
  if i < 0 then
    Except.error ⟨400, "Start index less than zero"⟩
  else if cap ≤ 0 then
    Except.error ⟨400, "Buffer capacity is less or equal zero"⟩
  else if width * height ≤ i then
    Except.error ⟨400, "Start index is more than width * height"⟩
  else
    match render with
    | Except.error e => Except.ok (error_message (fetch_error_text e))
    | Except.ok img_arr =>
        Except.ok (String.intercalate " "
          (((img_arr.drop i.toNat).take cap.toNat).map toBase36))

/-! ## Bit-packing arithmetic -/

lemma or_low_bits (x y k : ℕ) (hy : y < 2 ^ k) : (x <<< k) ||| y = 2 ^ k * x + y := by
  rw [Nat.shiftLeft_eq, Nat.mul_comm]
  exact (Nat.mul_add_lt_is_or hy x).symm

lemma pack_eq_sum (r g b a : ℕ) (hr : r < 256) (hg : g < 256) (hb : b < 256) :
    pack r g b a = 16777216 * a + 65536 * r + 256 * g + b := by
  have h1 : (g <<< 8) ||| b = 2 ^ 8 * g + b := or_low_bits g b 8 (by omega)
  have h2 : (r <<< 16) ||| (2 ^ 8 * g + b) = 2 ^ 16 * r + (2 ^ 8 * g + b) :=
    or_low_bits r _ 16 (by omega)
  have h3 : (a <<< 24) ||| (2 ^ 16 * r + (2 ^ 8 * g + b)) =
      2 ^ 24 * a + (2 ^ 16 * r + (2 ^ 8 * g + b)) :=
    or_low_bits a _ 24 (by omega)
  calc pack r g b a
      = (a <<< 24) ||| ((r <<< 16) ||| ((g <<< 8) ||| b)) := by
        rw [pack, Nat.or_assoc, Nat.or_assoc]
    _ = 2 ^ 24 * a + (2 ^ 16 * r + (2 ^ 8 * g + b)) := by rw [h1, h2, h3]
    _ = 16777216 * a + 65536 * r + 256 * g + b := by ring

lemma and_255_eq_mod (x : ℕ) : x &&& 255 = x % 256 := by
  simpa using Nat.and_pow_two_sub_one_eq_mod x 8

/-- C3: packing a pixel with channels `(r, g, b, a)`, each below 256, yields
`(a<<24)|(r<<16)|(g<<8)|b`, which equals the positional sum
`a·2²⁴ + r·2¹⁶ + g·2⁸ + b`, fits in 32 bits, and the shift-and-mask
projections recover exactly `(a, r, g, b)`. -/
theorem pack_round_trip (r g b a : ℕ)
    (hr : r < 256) (hg : g < 256) (hb : b < 256) (ha : a < 256) :
    pack r g b a = 16777216 * a + 65536 * r + 256 * g + b
    ∧ pack r g b a < 2 ^ 32
    ∧ (pack r g b a >>> 24) &&& 255 = a
    ∧ (pack r g b a >>> 16) &&& 255 = r
    ∧ (pack r g b a >>> 8) &&& 255 = g
    ∧ pack r g b a &&& 255 = b := by
  have hs := pack_eq_sum r g b a hr hg hb
  rw [hs, Nat.shiftRight_eq_div_pow, Nat.shiftRight_eq_div_pow,
    Nat.shiftRight_eq_div_pow, and_255_eq_mod, and_255_eq_mod, and_255_eq_mod,
    and_255_eq_mod]
  norm_num
  omega

/-- Witness for `pack_round_trip` at the concrete pixel `(r,g,b,a) = (255,0,0,255)`
(the fully opaque red pixel of the spec, packed value `0xFFFF0000`). -/
theorem pack_round_trip_witness :
    pack 255 0 0 255 = 16777216 * 255 + 65536 * 255 + 256 * 0 + 0
    ∧ pack 255 0 0 255 < 2 ^ 32
    ∧ (pack 255 0 0 255 >>> 24) &&& 255 = 255
    ∧ (pack 255 0 0 255 >>> 16) &&& 255 = 255
    ∧ (pack 255 0 0 255 >>> 8) &&& 255 = 0
    ∧ pack 255 0 0 255 &&& 255 = 0 := by
  have h := pack_round_trip 255 0 0 255 (by decide) (by decide) (by decide) (by decide)
  simpa using h

/-! ## Base-36 encoding -/

lemma base36Digits_zero : base36Digits 0 = [] := by
  unfold base36Digits; simp

lemma base36Digits_cons (n : ℕ) (hn : n ≠ 0) :
    base36Digits n = base36Digits (n / 36) ++ [base36Char (n % 36)] := by
  conv_lhs => unfold base36Digits
  simp [hn]

lemma base36CharVal_base36Char : ∀ d, d < 36 → base36CharVal (base36Char d) = d := by
  decide

lemma base36Char_ne_zero_char : ∀ d, d < 36 → d ≠ 0 → base36Char d ≠ '0' := by
  decide

lemma base36Char_charset : ∀ d, d < 36 →
    ('0' ≤ base36Char d ∧ base36Char d ≤ '9')
    ∨ ('A' ≤ base36Char d ∧ base36Char d ≤ 'Z') := by
  decide

lemma base36Digits_foldl (n : ℕ) : ∀ acc : ℕ,
    (base36Digits n).foldl (fun acc c => 36 * acc + base36CharVal c) acc
      = acc * 36 ^ (base36Digits n).length + n := by
  induction n using Nat.strong_induction_on with
  | _ n ih =>
    intro acc
    by_cases hn : n = 0
    · subst hn; rw [base36Digits_zero]; simp
    · rw [base36Digits_cons n hn, List.foldl_append,
        ih (n / 36) (Nat.div_lt_self (Nat.pos_of_ne_zero hn) (by omega)) acc]
      simp only [List.foldl_cons, List.foldl_nil, List.length_append,
        List.length_singleton]
      rw [base36CharVal_base36Char _ (Nat.mod_lt n (by omega))]
      have hd : 36 * (n / 36) + n % 36 = n := Nat.div_add_mod n 36
      calc 36 * (acc * 36 ^ (base36Digits (n / 36)).length + n / 36) + n % 36
          = acc * 36 ^ ((base36Digits (n / 36)).length + 1)
            + (36 * (n / 36) + n % 36) := by ring
        _ = acc * 36 ^ ((base36Digits (n / 36)).length + 1) + n := by rw [hd]

lemma base36Digits_ne_nil (n : ℕ) (hn : n ≠ 0) : base36Digits n ≠ [] := by
  rw [base36Digits_cons n hn]; simp

lemma ofBase36_toBase36 (n : ℕ) : ofBase36 (toBase36 n) = n := by
  unfold ofBase36 toBase36
  by_cases hn : n = 0
  · subst hn; simp [base36CharVal]
  · simp only [hn, if_false, ite_false]
    have h := base36Digits_foldl n 0
    simpa using h

lemma base36Digits_head_ne_zero (n : ℕ) (hn : n ≠ 0) :
    (base36Digits n).head? ≠ some '0' := by
  induction n using Nat.strong_induction_on with
  | _ n ih =>
    rw [base36Digits_cons n hn]
    by_cases h36 : n / 36 = 0
    · rw [h36, base36Digits_zero, List.nil_append]
      have hlt : n % 36 < 36 := Nat.mod_lt n (by omega)
      have hne : n % 36 ≠ 0 := by omega
      simpa using base36Char_ne_zero_char _ hlt hne
    · have hnn := base36Digits_ne_nil (n / 36) h36
      have hh : (base36Digits (n / 36) ++ [base36Char (n % 36)]).head?
          = (base36Digits (n / 36)).head? := by
        cases he : base36Digits (n / 36) with
        | nil => exact absurd he hnn
        | cons a t => rfl
      rw [hh]
      exact ih (n / 36) (Nat.div_lt_self (Nat.pos_of_ne_zero hn) (by omega)) h36

lemma base36Digits_charset (n : ℕ) : ∀ c ∈ base36Digits n,
    ('0' ≤ c ∧ c ≤ '9') ∨ ('A' ≤ c ∧ c ≤ 'Z') := by
  induction n using Nat.strong_induction_on with
  | _ n ih =>
    by_cases hn : n = 0
    · subst hn; rw [base36Digits_zero]; simp
    · rw [base36Digits_cons n hn]
      intro c hc
      rcases List.mem_append.mp hc with h | h
      · exact ih (n / 36) (Nat.div_lt_self (Nat.pos_of_ne_zero hn) (by omega)) c h
      · have : c = base36Char (n % 36) := by simpa using h
        subst this
        exact base36Char_charset _ (Nat.mod_lt n (by omega))

lemma toBase36_no_leading_zero (n : ℕ) (hn : n ≠ 0) :
    (toBase36 n).data.head? ≠ some '0' := by
  unfold toBase36
  simp only [hn, if_false, ite_false]
  exact base36Digits_head_ne_zero n hn

lemma toBase36_charset (n : ℕ) : ∀ c ∈ (toBase36 n).data,
    ('0' ≤ c ∧ c ≤ '9') ∨ ('A' ≤ c ∧ c ≤ 'Z') := by
  unfold toBase36
  by_cases hn : n = 0
  · subst hn; simp
  · simp only [hn, if_false, ite_false]
    exact base36Digits_charset n

/-! ## Window service: success body and validation -/

/-- C1: when validation passes (`0 ≤ i < width·height`, `cap > 0`) and the
render succeeds with the packed sequence `ps` (of length `width·height`), the
response is a success whose body is the base-36 encodings of
`ps[i : i + cap]` joined by single spaces; the number of tokens is exactly
`min cap (width·height - i)` (truncated at the end, no padding, no error);
and `toBase36` is a faithful uppercase base-36 encoding with no leading-zero
padding. -/
theorem get_picutre_pixels_window_encoding (ps : List ℕ) (i cap width height : ℤ)
    (hi : 0 ≤ i) (hcap : 0 < cap) (hrange : i < width * height)
    (hlen : (ps.length : ℤ) = width * height) :
    get_picutre_pixels (Except.ok ps) i cap width height
      = Except.ok (String.intercalate " "
          (((ps.drop i.toNat).take cap.toNat).map toBase36))
    ∧ (((ps.drop i.toNat).take cap.toNat).map toBase36).length
        = min cap.toNat (width * height - i).toNat
    ∧ (∀ n : ℕ, ofBase36 (toBase36 n) = n)
    ∧ (∀ n : ℕ, n ≠ 0 → (toBase36 n).data.head? ≠ some '0')
    ∧ (∀ n : ℕ, ∀ c ∈ (toBase36 n).data,
        ('0' ≤ c ∧ c ≤ '9') ∨ ('A' ≤ c ∧ c ≤ 'Z')) := by
  refine ⟨?_, ?_, ofBase36_toBase36, toBase36_no_leading_zero, toBase36_charset⟩
  · unfold get_picutre_pixels
    rw [if_neg (by omega), if_neg (by omega), if_neg (by omega)]
  · rw [List.length_map, List.length_take, List.length_drop]
    omega

/-- Witness for `get_picutre_pixels_window_encoding`: a 3-element packed
sequence served with `i = 1`, `cap = 5`, `width = 3`, `height = 1` yields
the 2 remaining tokens (the requested window runs past the end). -/
theorem get_picutre_pixels_window_encoding_witness :
    get_picutre_pixels (Except.ok [10, 11, 12]) 1 5 3 1
      = Except.ok (String.intercalate " " (([11, 12] : List ℕ).map toBase36))
    ∧ (([11, 12] : List ℕ).map toBase36).length = 2 := by
  have h := get_picutre_pixels_window_encoding [10, 11, 12] 1 5 3 1
    (by norm_num) (by norm_num) (by norm_num) (by norm_num)
  exact ⟨by simpa using h.1, by simpa using h.2.1⟩

/-- C2: validation is checked in source order — (1) `i < 0`, (2) `cap ≤ 0`,
(3) `i ≥ width·height` — the first failing check produces the transport-level
client error with the exact source message, and on any validation failure the
result does not depend on the render outcome (no rendering is attempted). -/
theorem get_picutre_pixels_validation_order (render : Except FetchError (List ℕ))
    (i cap width height : ℤ) :
    (i < 0 → get_picutre_pixels render i cap width height
        = Except.error ⟨400, "Start index less than zero"⟩)
    ∧ (0 ≤ i → cap ≤ 0 → get_picutre_pixels render i cap width height
        = Except.error ⟨400, "Buffer capacity is less or equal zero"⟩)
    ∧ (0 ≤ i → 0 < cap → width * height ≤ i →
        get_picutre_pixels render i cap width height
          = Except.error ⟨400, "Start index is more than width * height"⟩)
    ∧ ((i < 0 ∨ cap ≤ 0 ∨ width * height ≤ i) →
        ∀ render' : Except FetchError (List ℕ),
          get_picutre_pixels render' i cap width height
            = get_picutre_pixels render i cap width height) := by
  refine ⟨?_, ?_, ?_, ?_⟩
  · intro h
    unfold get_picutre_pixels
    rw [if_pos h]
  · intro h1 h2
    unfold get_picutre_pixels
    rw [if_neg (by omega), if_pos h2]
  · intro h1 h2 h3
    unfold get_picutre_pixels
    rw [if_neg (by omega), if_neg (by omega), if_pos h3]
  · intro hbad render'
    unfold get_picutre_pixels
    by_cases hi : i < 0
    · rw [if_pos hi, if_pos hi]
    · by_cases hc : cap ≤ 0
      · rw [if_neg hi, if_neg hi, if_pos hc, if_pos hc]
      · by_cases hwh : width * height ≤ i
        · rw [if_neg hi, if_neg hi, if_neg hc, if_neg hc, if_pos hwh, if_pos hwh]
        · rcases hbad with h | h | h
          · exact absurd h hi
          · exact absurd h hc
          · exact absurd h hwh

/-- Witness for `get_picutre_pixels_validation_order`: each validation failure
at a concrete request, plus independence from the render outcome. -/
theorem get_picutre_pixels_validation_order_witness :
    get_picutre_pixels (Except.ok ([] : List ℕ)) (-1) 1 2 2
      = Except.error ⟨400, "Start index less than zero"⟩
    ∧ get_picutre_pixels (Except.ok ([] : List ℕ)) 0 0 2 2
      = Except.error ⟨400, "Buffer capacity is less or equal zero"⟩
    ∧ get_picutre_pixels (Except.ok ([] : List ℕ)) 4 1 2 2
      = Except.error ⟨400, "Start index is more than width * height"⟩
    ∧ get_picutre_pixels (Except.error FetchError.timeout) 4 1 2 2
      = get_picutre_pixels (Except.ok ([] : List ℕ)) 4 1 2 2 :=
  ⟨(get_picutre_pixels_validation_order (Except.ok []) (-1) 1 2 2).1 (by norm_num),
   (get_picutre_pixels_validation_order (Except.ok []) 0 0 2 2).2.1
     (by norm_num) (by norm_num),
   (get_picutre_pixels_validation_order (Except.ok []) 4 1 2 2).2.2.1
     (by norm_num) (by norm_num) (by norm_num),
   (get_picutre_pixels_validation_order (Except.ok []) 4 1 2 2).2.2.2
     (Or.inr (Or.inr (by norm_num))) (Except.error FetchError.timeout)⟩

/-- C8: when validation passes, any propagated `FetchError` kind produces a
*successful* response whose body is the `!`-prefixed error text; conversely a
transport-level client error (`HTTPException`) arises only from a validation
failure, never from a fetch/decode failure. -/
theorem get_picutre_pixels_fetch_error_in_band (render : Except FetchError (List ℕ))
    (i cap width height : ℤ) :
    (0 ≤ i → 0 < cap → i < width * height → ∀ e, render = Except.error e →
      get_picutre_pixels render i cap width height
        = Except.ok (error_message (fetch_error_text e))
      ∧ (error_message (fetch_error_text e)).data.head? = some '!')
    ∧ (∀ he : HTTPException,
        get_picutre_pixels render i cap width height = Except.error he →
        i < 0 ∨ cap ≤ 0 ∨ width * height ≤ i) := by
  constructor
  · intro h1 h2 h3 e herr
    subst herr
    constructor
    · unfold get_picutre_pixels
      rw [if_neg (by omega), if_neg (by omega), if_neg (by omega)]
    · unfold error_message
      rw [String.data_append]
      rfl
  · intro he h
    by_contra hbad
    push_neg at hbad
    obtain ⟨hi, hc, hwh⟩ := hbad
    unfold get_picutre_pixels at h
    rw [if_neg (by omega), if_neg (by omega), if_neg (by omega)] at h
    cases render with
    | error e => simp at h
    | ok arr => simp at h

/-- Witness for `get_picutre_pixels_fetch_error_in_band`: a timeout during
fetch at a validated request is reported in-band with a `!`-prefixed body. -/
theorem get_picutre_pixels_fetch_error_in_band_witness :
    get_picutre_pixels (Except.error FetchError.timeout) 0 1 1 1
      = Except.ok (error_message (fetch_error_text FetchError.timeout))
    ∧ (error_message (fetch_error_text FetchError.timeout)).data.head? = some '!' :=
  (get_picutre_pixels_fetch_error_in_band (Except.error FetchError.timeout) 0 1 1 1).1
    (by norm_num) (by norm_num) (by norm_num) FetchError.timeout rfl

/-- C10 counterexample: at `i = 0`, `cap = 0`, `width = 0`, `height = 0`
(so `i ≥ 0` and `width·height ≤ 0`), the request is rejected with the
*capacity* message, not with "Start index is more than width * height" as the
claim asserts for every such request. -/
theorem get_picutre_pixels_zero_area_counterexample :
    (0 : ℤ) * 0 ≤ 0 ∧ (0 : ℤ) ≤ 0
    ∧ get_picutre_pixels (Except.ok ([] : List ℕ)) 0 0 0 0
        = Except.error ⟨400, "Buffer capacity is less or equal zero"⟩
    ∧ HTTPException.mk 400 "Buffer capacity is less or equal zero"
        ≠ HTTPException.mk 400 "Start index is more than width * height" := by
  refine ⟨by norm_num, le_refl 0, ?_, by decide⟩
  unfold get_picutre_pixels
  rw [if_neg (by omega), if_pos (by omega)]

/-- C10 (amended): with `width·height ≤ 0`, `i ≥ 0` and `cap > 0`, the request
is always rejected with "Start index is more than width * height" — the
dimensions themselves are never checked — and the result does not depend on
the render outcome, so fetching/rendering is never reached. -/
theorem get_picutre_pixels_zero_area_rejected (render : Except FetchError (List ℕ))
    (i cap width height : ℤ)
    (hwh : width * height ≤ 0) (hi : 0 ≤ i) (hcap : 0 < cap) :
    get_picutre_pixels render i cap width height
      = Except.error ⟨400, "Start index is more than width * height"⟩
    ∧ ∀ render' : Except FetchError (List ℕ),
        get_picutre_pixels render' i cap width height
          = get_picutre_pixels render i cap width height := by
  have key : ∀ r : Except FetchError (List ℕ),
      get_picutre_pixels r i cap width height
        = Except.error ⟨400, "Start index is more than width * height"⟩ := by
    intro r
    unfold get_picutre_pixels
    rw [if_neg (by omega), if_neg (by omega), if_pos (by omega)]
  exact ⟨key render, fun render' => (key render').trans (key render).symm⟩

/-- Witness for `get_picutre_pixels_zero_area_rejected` at
`width = 0`, `height = 5`, `i = 0`, `cap = 1`. -/
theorem get_picutre_pixels_zero_area_rejected_witness :
    get_picutre_pixels (Except.ok ([] : List ℕ)) 0 1 0 5
      = Except.error ⟨400, "Start index is more than width * height"⟩ :=
  (get_picutre_pixels_zero_area_rejected (Except.ok []) 0 1 0 5
    (by norm_num) (by norm_num) (by norm_num)).1

/-! ## Aspect-fit resizer -/

/-- C5 counterexample: for a 2×1 source (`width ≥ height`) resized into a 3×3
target, the code computes scaled height `int(1 * (3/2)) = 1` (truncation),
while the claimed `round(sourceHeight·desiredWidth/sourceWidth) = round(3/2)
= 2`. -/
theorem resize_aspect_round_counterexample :
    (1 : ℕ) ≤ 2
    ∧ (aspectScaledDims 2 1 3 3).2 = 1
    ∧ round (((1 : ℚ) * 3) / 2) = 2
    ∧ ((aspectScaledDims 2 1 3 3).2 : ℤ) ≠ round (((1 : ℚ) * 3) / 2) := by
  have h2 : (aspectScaledDims 2 1 3 3).2 = 1 := by decide
  have h3 : round (((1 : ℚ) * 3) / 2) = 2 := by norm_num [round_eq]
  refine ⟨by norm_num, h2, h3, ?_⟩
  rw [h2, h3]
  decide

/-- C5 (amended, `round` replaced by the truncation the code performs): the
resizer branches purely on `sourceWidth ≥ sourceHeight`. In the first branch
the scaled image is `desiredWidth × ⌊sourceHeight·desiredWidth/sourceWidth⌋`,
pasted at vertical offset `⌊(desiredHeight - scaledHeight)/2⌋` (floor
division); symmetrically in the other branch. The canvas is a fresh fully
transparent `desiredWidth × desiredHeight` image: its dimensions are exactly
the desired ones and every pixel outside the pasted rectangle is
`(0, 0, 0, 0)`. -/
theorem resize_to_keep_aspect_ratio_spec (resample : Resample) (img : RGBAImage)
    (dw dh : ℕ) :
    ( resize_to_keep_aspect_ratio resample img dw dh).width = dw
    ∧ ( resize_to_keep_aspect_ratio resample img dw dh).height = dh
    ∧ (img.height ≤ img.width →
        aspectScaledDims img.width img.height dw dh
          = (dw, img.height * dw / img.width)
        ∧ resize_to_keep_aspect_ratio resample img dw dh
          = paste (imageNew dw dh)
              (resizeImage resample img dw (img.height * dw / img.width))
              0 (((dh : ℤ) - ((img.height * dw / img.width : ℕ) : ℤ)).fdiv 2))
    ∧ (img.width < img.height →
        aspectScaledDims img.width img.height dw dh
          = (img.width * dh / img.height, dh)
        ∧ resize_to_keep_aspect_ratio resample img dw dh
          = paste (imageNew dw dh)
              (resizeImage resample img (img.width * dh / img.height) dh)
              (((dw : ℤ) - ((img.width * dh / img.height : ℕ) : ℤ)).fdiv 2) 0)
    ∧ (∀ (scaled : RGBAImage) (ox oy : ℤ) (x y : ℕ),
        ¬(ox ≤ (x : ℤ) ∧ (x : ℤ) < ox + (scaled.width : ℤ) ∧
          oy ≤ (y : ℤ) ∧ (y : ℤ) < oy + (scaled.height : ℤ)) →
        (paste (imageNew dw dh) scaled ox oy).pixel x y = (0, 0, 0, 0)) := by
  refine ⟨?_, ?_, ?_, ?_, ?_⟩
  · by_cases hb : img.height ≤ img.width <;>
      simp [ resize_to_keep_aspect_ratio, paste, imageNew, hb]
  · by_cases hb : img.height ≤ img.width <;>
      simp [ resize_to_keep_aspect_ratio, paste, imageNew, hb]
  · intro hb
    constructor
    · simp [aspectScaledDims, hb]
    · simp [ resize_to_keep_aspect_ratio, aspectScaledDims, resizeImage, hb]
  · intro hb
    have hb' : ¬ img.height ≤ img.width := by omega
    constructor
    · simp [aspectScaledDims, hb']
    · simp [ resize_to_keep_aspect_ratio, aspectScaledDims, resizeImage, hb']
  · intro scaled ox oy x y h
    simp only [paste, imageNew]
    rw [if_neg h]

/-- Witness for `resize_to_keep_aspect_ratio_spec`: a concrete 2×1 source into
a 3×3 target (first branch: scaled dimensions `(3, 1)`). -/
theorem resize_to_keep_aspect_ratio_spec_witness :
    ( resize_to_keep_aspect_ratio (fun _ _ _ _ _ => (0, 0, 0, 0))
        ⟨2, 1, fun _ _ => (0, 0, 0, 0)⟩ 3 3).width = 3
    ∧ ( resize_to_keep_aspect_ratio (fun _ _ _ _ _ => (0, 0, 0, 0))
        ⟨2, 1, fun _ _ => (0, 0, 0, 0)⟩ 3 3).height = 3
    ∧ aspectScaledDims 2 1 3 3 = (3, 1) := by
  have h := resize_to_keep_aspect_ratio_spec (fun _ _ _ _ _ => (0, 0, 0, 0))
    ⟨2, 1, fun _ _ => (0, 0, 0, 0)⟩ 3 3
  exact ⟨h.1, h.2.1, (h.2.2.1 (by norm_num)).1⟩

/-- C6 counterexample: for a 2×1 source (`width ≥ height`) and a 10×1 target,
the scaled height is `⌊1·10/2⌋ = 5`, which exceeds `desiredHeight = 1` — the
claimed bound fails. -/
theorem aspect_scaled_exceeds_bound_counterexample :
    (1 : ℕ) ≤ 2
    ∧ (aspectScaledDims 2 1 10 1).2 = 5
    ∧ ¬((aspectScaledDims 2 1 10 1).2 ≤ 1) := by
  decide

/-- C6 (amended): the scaled dimension on the non-driving axis is bounded by
the *driving* desired dimension, not by its own: when `sourceWidth ≥
sourceHeight` the scaled height is at most `desiredWidth` (hence at most
`desiredHeight` whenever `desiredWidth ≤ desiredHeight`), and symmetrically
when `sourceWidth < sourceHeight`. -/
theorem aspectScaledDims_bound (sw sh dw dh : ℕ) (hsw : 0 < sw) (hsh : 0 < sh) :
    (sh ≤ sw → (aspectScaledDims sw sh dw dh).2 ≤ dw
      ∧ (dw ≤ dh → (aspectScaledDims sw sh dw dh).2 ≤ dh))
    ∧ (sw < sh → (aspectScaledDims sw sh dw dh).1 ≤ dh
      ∧ (dh ≤ dw → (aspectScaledDims sw sh dw dh).1 ≤ dw)) := by
  constructor
  · intro h
    have hle : sh * dw / sw ≤ dw := by
      calc sh * dw / sw ≤ sw * dw / sw :=
            Nat.div_le_div_right (mul_le_mul_right' h dw)
        _ = dw := Nat.mul_div_cancel_left dw hsw
    have he : (aspectScaledDims sw sh dw dh).2 = sh * dw / sw := by
      simp [aspectScaledDims, h]
    rw [he]
    exact ⟨hle, fun hwh => hle.trans hwh⟩
  · intro h
    have hle : sw * dh / sh ≤ dh := by
      calc sw * dh / sh ≤ sh * dh / sh :=
            Nat.div_le_div_right (mul_le_mul_right' (le_of_lt h) dh)
        _ = dh := Nat.mul_div_cancel_left dh hsh
    have he : (aspectScaledDims sw sh dw dh).1 = sw * dh / sh := by
      have h' : ¬ sh ≤ sw := by omega
      simp [aspectScaledDims, h']
    rw [he]
    exact ⟨hle, fun hwh => hle.trans hwh⟩

/-- Witness for `aspectScaledDims_bound`: a 2×1 source into a 3×4 target. -/
theorem aspectScaledDims_bound_witness :
    (aspectScaledDims 2 1 3 4).2 ≤ 3 ∧ (aspectScaledDims 2 1 3 4).2 ≤ 4 := by
  have h := (aspectScaledDims_bound 2 1 3 4 (by norm_num) (by norm_num)).1
    (by norm_num)
  exact ⟨h.1, h.2 (by norm_num)⟩

/-! ## Row-major packing -/

lemma flatMap_range_length {α : Type} (f : ℕ → List α) (w n : ℕ)
    (hf : ∀ y, (f y).length = w) :
    ((List.range n).flatMap f).length = n * w := by
  induction n with
  | zero => simp
  | succ m ih =>
    rw [List.range_succ, List.flatMap_append, List.length_append, ih]
    simp [hf, Nat.succ_mul]

lemma flatMap_range_getElem {α : Type} (f : ℕ → List α) (w n : ℕ)
    (hf : ∀ y, (f y).length = w) (x y : ℕ) (hx : x < w) (hy : y < n) :
    ((List.range n).flatMap f)[y * w + x]? = (f y)[x]? := by
  induction n with
  | zero => omega
  | succ m ih =>
    rw [List.range_succ, List.flatMap_append]
    by_cases hym : y < m
    · rw [List.getElem?_append_left]
      · exact ih hym
      · rw [flatMap_range_length f w m hf]
        have : y * w + x < (y + 1) * w := by
          rw [Nat.succ_mul]; omega
        have hmul : (y + 1) * w ≤ m * w := Nat.mul_le_mul_right w hym
        omega
    · have hym' : y = m := by omega
      subst hym'
      rw [List.getElem?_append_right]
      · rw [flatMap_range_length f w y hf]
        have harith : y * w + x - y * w = x := by omega
        rw [harith]
        simp
      · rw [flatMap_range_length f w y hf]
        omega

lemma getdata_length (img : RGBAImage) :
    (getdata img).length = img.height * img.width := by
  unfold getdata
  exact flatMap_range_length _ img.width img.height (fun y => by simp)

lemma getdata_getElem (img : RGBAImage) (x y : ℕ)
    (hx : x < img.width) (hy : y < img.height) :
    (getdata img)[y * img.width + x]? = some (img.pixel x y) := by
  unfold getdata
  rw [flatMap_range_getElem _ img.width img.height (fun y => by simp) x y hx hy]
  simp [hx]

lemma resizedImage_width (resample : Resample) (img : RGBAImage)
    (width height : ℕ) ( keep_aspect_ratio : Bool) :
    (resizedImage resample img width height keep_aspect_ratio).width = width := by
  cases keep_aspect_ratio with
  | false => rfl
  | true =>
    simp only [resizedImage, Bool.not_true, Bool.false_eq_true, if_false, ite_false]
    by_cases hb : img.height ≤ img.width <;>
      simp [ resize_to_keep_aspect_ratio, paste, imageNew, hb]

lemma resizedImage_height (resample : Resample) (img : RGBAImage)
    (width height : ℕ) ( keep_aspect_ratio : Bool) :
    (resizedImage resample img width height keep_aspect_ratio).height = height := by
  cases keep_aspect_ratio with
  | false => rfl
  | true =>
    simp only [resizedImage, Bool.not_true, Bool.false_eq_true, if_false, ite_false]
    by_cases hb : img.height ≤ img.width <;>
      simp [ resize_to_keep_aspect_ratio, paste, imageNew, hb]

/-- C4: for positive target dimensions, `handle_picture` produces exactly
`width·height` packed values, in row-major order: the element at index
`y·width + x` is the packed pixel `(x, y)` of the resized image — in both the
aspect-preserving and the direct-resize mode. -/
theorem handle_picture_length_row_major (resample : Resample) (img : RGBAImage)
    (width height : ℕ) ( keep_aspect_ratio : Bool)
    (hw : 0 < width) (hh : 0 < height) :
    (handle_picture resample img width height keep_aspect_ratio).length
      = width * height
    ∧ ∀ x y : ℕ, x < width → y < height →
        (handle_picture resample img width height keep_aspect_ratio)[y * width + x]?
          = some (packPixel
              ((resizedImage resample img width height keep_aspect_ratio).pixel x y)) := by
  constructor
  · unfold handle_picture
    rw [List.length_map, getdata_length, resizedImage_width, resizedImage_height]
    exact Nat.mul_comm height width
  · intro x y hx hy
    unfold handle_picture
    rw [List.getElem?_map]
    have hidx := getdata_getElem
      (resizedImage resample img width height keep_aspect_ratio) x y
      (by rw [resizedImage_width]; exact hx)
      (by rw [resizedImage_height]; exact hy)
    rw [resizedImage_width] at hidx
    rw [hidx]
    rfl

/-- Witness for `handle_picture_length_row_major`: a 1×1 opaque red source
rendered directly at 2×2 has 4 packed values and index `1·2 + 1` is the packed
pixel `(1, 1)`. -/
theorem handle_picture_length_row_major_witness :
    (handle_picture (fun img _ _ _ _ => img.pixel 0 0)
        ⟨1, 1, fun _ _ => (255, 0, 0, 255)⟩ 2 2 false).length = 2 * 2
    ∧ (handle_picture (fun img _ _ _ _ => img.pixel 0 0)
        ⟨1, 1, fun _ _ => (255, 0, 0, 255)⟩ 2 2 false)[1 * 2 + 1]?
      = some (packPixel ((resizedImage (fun img _ _ _ _ => img.pixel 0 0)
          ⟨1, 1, fun _ _ => (255, 0, 0, 255)⟩ 2 2 false).pixel 1 1)) := by
  have h := handle_picture_length_row_major (fun img _ _ _ _ => img.pixel 0 0)
    ⟨1, 1, fun _ _ => (255, 0, 0, 255)⟩ 2 2 false (by norm_num) (by norm_num)
  exact ⟨h.1, h.2 1 1 (by norm_num) (by norm_num)⟩

/-! ## LRU caches -/

/-- C9: the LRU cache semantics shared by both caches. For a well-formed
state: the state stays well-formed (never more entries than the capacity);
a hit returns the cached value, moves the entry to the most-recent position,
and never calls the compute function (the result is the same for every
compute function); a miss consults the compute function; and a miss at
capacity with a successful computation inserts the new entry and evicts
exactly the least-recently-used entry (the last one). -/
theorem lruGet_lru_spec {K V E : Type} [DecidableEq K] (cap : ℕ)
    (f : K → Except E V) (st : List (K × V)) (k : K) (hwf : LruWF cap st) :
    LruWF cap (lruGet cap f st k).2
    ∧ (∀ p : K × V, st.find? (fun q => decide (q.1 = k)) = some p →
        (lruGet cap f st k).1 = Except.ok p.2
        ∧ (lruGet cap f st k).2
            = (k, p.2) :: st.filter (fun q => decide (q.1 ≠ k))
        ∧ ∀ g : K → Except E V, lruGet cap g st k = lruGet cap f st k)
    ∧ (st.find? (fun q => decide (q.1 = k)) = none →
        (lruGet cap f st k).1 = f k)
    ∧ (∀ v : V, st.find? (fun q => decide (q.1 = k)) = none →
        st.length = cap → 0 < cap → f k = Except.ok v →
        (lruGet cap f st k).2 = (k, v) :: st.dropLast) := by
  obtain ⟨hnd, hlen⟩ := hwf
  refine ⟨?_, ?_, ?_, ?_⟩
  · cases hfind : st.find? (fun q => decide (q.1 = k)) with
    | some p =>
      have hpmem : p ∈ st := List.mem_of_find?_eq_some hfind
      have hpk : p.1 = k := by simpa using List.find?_some hfind
      have hflt : (st.filter (fun q => decide (q.1 ≠ k))).length < st.length :=
        List.length_filter_lt_length_iff_exists.mpr ⟨p, hpmem, by simp [hpk]⟩
      have hsub : (st.filter (fun q => decide (q.1 ≠ k))).Sublist st :=
        List.filter_sublist st
      constructor
      · unfold lruGet
        rw [hfind]
        refine List.nodup_cons.mpr ⟨?_, hnd.sublist (hsub.map Prod.fst)⟩
        intro hkmem
        obtain ⟨q, hq, hqk⟩ := List.mem_map.mp hkmem
        have := (List.mem_filter.mp hq).2
        simp [hqk] at this
      · unfold lruGet
        rw [hfind]
        simpa using Nat.lt_of_lt_of_le hflt hlen
    | none =>
      have hnotin : ∀ q ∈ st, ¬(q.1 = k) := by
        intro q hq
        have := List.find?_eq_none.mp hfind q hq
        simpa using this
      unfold lruGet
      rw [hfind]
      cases hf : f k with
      | error e => exact ⟨hnd, hlen⟩
      | ok v =>
        constructor
        · have hcons : (((k, v) :: st).map Prod.fst).Nodup := by
            refine List.nodup_cons.mpr ⟨?_, hnd⟩
            intro hkmem
            obtain ⟨q, hq, hqk⟩ := List.mem_map.mp hkmem
            exact hnotin q hq hqk
          exact hcons.sublist ((List.take_sublist cap _).map Prod.fst)
        · simpa using min_le_left cap _
  · intro p hp
    refine ⟨?_, ?_, ?_⟩
    · unfold lruGet; rw [hp]
    · unfold lruGet; rw [hp]
    · intro g
      unfold lruGet
      rw [hp]
  · intro hmiss
    unfold lruGet
    rw [hmiss]
    cases hf : f k <;> simp [hf]
  · intro v hmiss hcap hpos hok
    unfold lruGet
    rw [hmiss, hok]
    obtain ⟨m, rfl⟩ : ∃ m, cap = m + 1 := ⟨cap - 1, by omega⟩
    simp only [List.take_succ_cons]
    rw [List.dropLast_eq_take, hcap]
    simp

/-- Witness for `lruGet_lru_spec`: a capacity-2 cache holding one entry; a hit
on its key keeps the state well-formed and returns the cached value without
consulting the compute function. -/
theorem lruGet_lru_spec_witness :
    LruWF 2 (lruGet 2 (fun _ => (Except.ok 7 : Except Unit ℕ))
        ([(5, 1)] : List (ℕ × ℕ)) 5).2
    ∧ (lruGet 2 (fun _ => (Except.ok 7 : Except Unit ℕ))
        ([(5, 1)] : List (ℕ × ℕ)) 5).1 = Except.ok 1
    ∧ lruGet 2 (fun _ => (Except.ok 9 : Except Unit ℕ))
        ([(5, 1)] : List (ℕ × ℕ)) 5
      = lruGet 2 (fun _ => (Except.ok 7 : Except Unit ℕ))
        ([(5, 1)] : List (ℕ × ℕ)) 5 := by
  have h := lruGet_lru_spec 2 (fun _ => (Except.ok 7 : Except Unit ℕ))
    ([(5, 1)] : List (ℕ × ℕ)) 5 ⟨by simp, by simp⟩
  have hhit := h.2.1 (5, 1) rfl
  exact ⟨h.1, hhit.1, hhit.2.2 (fun _ => (Except.ok 9 : Except Unit ℕ))⟩

/-- C7: a failed fetch is never memoized. If `fetch_picture` propagates any
`FetchError`, the fetch-cache state is unchanged, and a subsequent request for
the same URL behaves exactly like the first one (it attempts the network call
again). -/
theorem fetch_picture_error_not_cached (net : String → Except FetchError RGBAImage)
    (st : List (String × RGBAImage)) (img_url : String) (e : FetchError)
    (h : (fetch_picture net st img_url).1 = Except.error e) :
    (fetch_picture net st img_url).2 = st
    ∧ fetch_picture net (fetch_picture net st img_url).2 img_url
        = fetch_picture net st img_url := by
  have hst : (fetch_picture net st img_url).2 = st := by
    unfold fetch_picture lruGet at h ⊢
    cases hfind : st.find? (fun p => decide (p.1 = img_url)) with
    | some p =>
      rw [hfind] at h
      simp at h
    | none =>
      cases hnet : net img_url with
      | error e' => rfl
      | ok v =>
        rw [hfind, hnet] at h
        simp at h
  exact ⟨hst, by rw [hst]⟩

/-- Witness for `fetch_picture_error_not_cached`: an unreachable host (the
network function always raises a connection error) leaves the empty cache
empty, and the retry behaves identically. -/
theorem fetch_picture_error_not_cached_witness :
    (fetch_picture (fun _ => Except.error FetchError.connectionError) [] "u").2 = []
    ∧ fetch_picture (fun _ => Except.error FetchError.connectionError)
        ((fetch_picture (fun _ => Except.error FetchError.connectionError) [] "u").2) "u"
      = fetch_picture (fun _ => Except.error FetchError.connectionError) [] "u" :=
  fetch_picture_error_not_cached (fun _ => Except.error FetchError.connectionError)
    [] "u" FetchError.connectionError rfl
